import Mathlib

/-!
Verification of the publish API handlers of the aptly repository
(`api/publish.go`): a shallow embedding of `parseEscapedPath`,
`apiPublishRepoOrSnapshot`, `apiPublishUpdateSwitch` and `apiPublishDrop`,
together with theorems about the behaviour of these handlers.

External collaborators of the handlers (the `deb` collections, the publish
engine, the record store and the task scheduler) are modelled from the
design document; each such definition carries a doc comment starting with
`Modelled from the spec:`.  Definitions translated directly from
`api/publish.go` cite the corresponding lines.
-/

namespace AptlyPublish

/-! ## Association-list helpers (Go `map[string]string` semantics) -/

/-- Lookup in an association list, first match wins (the key lists we build
are duplicate-free, matching Go map semantics). -/
def alookup : List (String × String) → String → Option String
  | [], _ => none
  | (k, v) :: rest, key => if k = key then some v else alookup rest key

/-- Go map assignment `m[k] = v`: overwrite the binding of `k` when present,
otherwise add a new binding. -/
def mapInsert : List (String × String) → String → String → List (String × String)
  | [], k, v => [(k, v)]
  | (k0, v0) :: rest, k, v =>
    if k0 = k then (k, v) :: rest else (k0, v0) :: mapInsert rest k v

/-- `api/publish.go` lines 366-370 and 431-434: turn a request's source entry
list `(component, name)` into a Go map `component -> name`; a later entry for
the same component overwrites an earlier one. -/
def buildMap (l : List (String × String)) : List (String × String) :=
  l.foldl (fun m e => mapInsert m e.1 e.2) []

/-! ## `parseEscapedPath` (`api/publish.go` lines 47-54)

The Go code is
`result := strings.Replace(strings.Replace(path, "_", "/", -1), "//", "_", -1)`
followed by `if result == "" { result = "." }`.  Strings are modelled as
`List Char`.  `replaceAll` models `strings.Replace(s, old, new, -1)`: every
non-overlapping leftmost occurrence of `old` is replaced by `new`.  The
recursion is fuelled so that the definition is structurally recursive (and
hence computable by `decide`); `replaceAll` passes `s.length` as fuel, which
bounds the number of steps the Go scan needs (each step consumes at least one
character as callers always pass a nonempty `old`; Go treats an empty `old`
specially and that case is never exercised here). -/

def replaceAllF (old new : List Char) : Nat → List Char → List Char
  | _, [] => []
  | 0, s => s
  | fuel + 1, c :: rest =>
    if old.isPrefixOf (c :: rest) ∧ old ≠ [] then
      new ++ replaceAllF old new fuel ((c :: rest).drop old.length)
    else
      c :: replaceAllF old new fuel rest

def replaceAll (old new s : List Char) : List Char :=
  replaceAllF old new s.length s

/-- `api/publish.go` lines 48-54. -/
def parseEscapedPath (path : List Char) : List Char :=
  let result := replaceAll ['/', '/'] ['_'] (replaceAll ['_'] ['/'] path)
  if result = [] then ['.'] else result

/-! ## Data model

`PublishedRepo` mirrors `deb.PublishedRepo` as used by `api/publish.go`:
identity `(storage, pfx, distribution)` (`pfx` stands for the Go field
`Prefix`), a source kind, the component -> source-UUID mapping (`Sources` in
Go), and the flag/metadata fields the handlers set. -/

structure PublishedRepo where
  storage : String
  pfx : String
  distribution : String
  sourceKind : String
  sourceList : List (String × String)
  label : String
  origin : String
  notAutomatic : String
  butAutomaticUpgrades : String
  skipContents : Bool
  skipBz2 : Bool
  acquireByHash : Bool
  multiDist : Bool
  deriving DecidableEq

/-- Modelled from the spec: `deb.SourceSnapshot`, the source-kind tag for
snapshot-backed publish points (the `deb` package is outside `src/`). -/
def SourceSnapshot : String := "snapshot"

/-- Modelled from the spec: `deb.SourceLocalRepo`, the source-kind tag for
local-repo-backed publish points (the `deb` package is outside `src/`). -/
def SourceLocalRepo : String := "local"

/-- Modelled from the spec: the components list "is always exactly the key
set of the sources mapping" (`deb.PublishedRepo.Components`, outside `src/`).
-/
def PublishedRepo.components (p : PublishedRepo) : List String :=
  p.sourceList.map Prod.fst

/-- Modelled from the spec: unbinding a component removes it from the sources
mapping (`deb.PublishedRepo.RemoveComponent`, outside `src/`). -/
def removeComponent (p : PublishedRepo) (component : String) : PublishedRepo :=
  { p with sourceList := p.sourceList.filter (fun e => e.1 ≠ component) }

/-- Modelled from the spec: rebinding a component sets its entry in the
sources mapping (`deb.PublishedRepo.UpsertLocalRepo` /
`deb.PublishedRepo.UpsertSnapshot`, outside `src/`). -/
def upsertSource (p : PublishedRepo) (component uuid : String) : PublishedRepo :=
  { p with sourceList := mapInsert p.sourceList component uuid }

/-- Modelled from the spec: opaque identity keys used for lock scheduling —
one per published-repo identity and one per snapshot / local repo. -/
inductive ResourceKey where
  | publishedKey (storage pfx distribution : String)
  | snapshotKey (uuid : String)
  | localRepoKey (uuid : String)
  deriving DecidableEq

/-- A snapshot or local repo as far as the handlers observe one: a name used
for lookup and a stable UUID. -/
structure NamedSource where
  name : String
  uuid : String
  deriving DecidableEq

/-- Modelled from the spec: the outcomes of every external collaborator the
handlers call — the named-source collections (`ByName` succeeds iff the name
is listed; `LoadComplete` fails iff the name is in the corresponding failure
list), the signer, the publish engine, the record-store commits and the
cleanup steps.  Each Boolean tells whether that collaborator fails. -/
structure Env where
  snapshots : List NamedSource
  localRepos : List NamedSource
  snapLoadFail : List String
  localLoadFail : List String
  pubLoadFail : Bool
  signerFails : Bool
  publishFails : Bool
  dbAddFails : Bool
  dbUpdateFails : Bool
  cleanupFails : Bool
  removeDirsFails : Bool
  dropRemoveFails : Bool
  configSkipContents : Bool
  configSkipBz2 : Bool
  deriving DecidableEq

def findByName : List NamedSource → String → Option NamedSource
  | [], _ => none
  | s :: rest, name => if s.name = name then some s else findByName rest name

/-! ## The record store

Modelled from the spec: the durable Record Store holds one record per
published-repo identity `(storage, pfx, distribution)`; the collection
offers lookup by identity (`ByStoragePrefixDistribution`), duplicate query
(`CheckDuplicate`), `Add` and `Update` (all outside `src/`). -/

abbrev Store := List PublishedRepo

def identFind : Store → String → String → String → Option PublishedRepo
  | [], _, _, _ => none
  | r :: rest, storage, pfx, distribution =>
    if r.storage = storage ∧ r.pfx = pfx ∧ r.distribution = distribution then some r
    else identFind rest storage pfx distribution

def identCount (store : Store) (storage pfx distribution : String) : Nat :=
  (store.filter (fun r =>
    decide (r.storage = storage ∧ r.pfx = pfx ∧ r.distribution = distribution))).length

/-- Modelled from the spec: `CheckDuplicate` queries the Record Store for a
record with the same identity. -/
def checkDuplicate (store : Store) (p : PublishedRepo) : Option PublishedRepo :=
  identFind store p.storage p.pfx p.distribution

/-- Modelled from the spec: `PublishedRepoCollection.Update` swaps the
committed value for the record with the same identity. -/
def identReplace (store : Store) (p : PublishedRepo) : Store :=
  store.map (fun r =>
    if r.storage = p.storage ∧ r.pfx = p.pfx ∧ r.distribution = p.distribution then p else r)

/-- Modelled from the spec: `PublishedRepoCollection.Remove` drops the record
with the given identity. -/
def identRemove (store : Store) (storage pfx distribution : String) : Store :=
  store.filter (fun r =>
    decide (¬ (r.storage = storage ∧ r.pfx = pfx ∧ r.distribution = distribution)))

/-! ## Create (`apiPublishRepoOrSnapshot`, `api/publish.go` lines 132-296) -/

/-- The JSON body bound at `api/publish.go` lines 136-154 (fields the model
tracks; `Sources` entries are `(Component, Name)` pairs).  The
`SigningOptions` outcome is carried by `Env.signerFails`. -/
structure CreateBody where
  sourceKind : String
  sources : List (String × String)
  distribution : String
  label : String
  origin : String
  notAutomatic : String
  butAutomaticUpgrades : String
  forceOverwrite : Bool
  skipContents : Option Bool
  skipBz2 : Option Bool
  acquireByHash : Option Bool
  multiDist : Option Bool
  deriving DecidableEq

/-- `api/publish.go` lines 177-200: resolve each snapshot source by name
(404 on unknown name, with `return`), collect its resource key, and load it
completely (500 on failure, with `return`).  The result carries the
`(component, uuid)` bindings and the per-source resource keys. -/
def resolveSnapshots (env : Env) :
    List (String × String) → Except Nat (List (String × String) × List ResourceKey)
  | [] => .ok ([], [])
  | (component, name) :: rest =>
    match findByName env.snapshots name with
    | none => .error 404
    | some snap =>
      if name ∈ env.snapLoadFail then .error 500
      else
        match resolveSnapshots env rest with
        | .error code => .error code
        | .ok (bindings, keys) =>
          .ok ((component, snap.uuid) :: bindings, .snapshotKey snap.uuid :: keys)

/-- `api/publish.go` lines 201-223: resolve each local-repo source by name
(404 on unknown name, with `return`).  On a `LoadComplete` failure the Go
code calls `AbortWithJSONError(c, 500, ...)` but — unlike the snapshot branch
— does NOT `return` (lines 217-220): the 500 response is recorded and the
loop and handler keep going, still appending the incompletely loaded repo.
The recorded abort codes are returned alongside the bindings. -/
def resolveLocalRepos (env : Env) :
    List (String × String) → Except Nat (List Nat × List (String × String) × List ResourceKey)
  | [] => .ok ([], [], [])
  | (component, name) :: rest =>
    match findByName env.localRepos name with
    | none => .error 404
    | some repo =>
      match resolveLocalRepos env rest with
      | .error code => .error code
      | .ok (aborts, bindings, keys) =>
        .ok ((if name ∈ env.localLoadFail then [500] else []) ++ aborts,
             (component, repo.uuid) :: bindings, .localRepoKey repo.uuid :: keys)

/-- Modelled from the spec: `deb.NewPublishedRepo` (outside `src/`) builds
the identity key and the sources mapping from the request; it enforces the
invariant that no component appears twice. -/
def newPublishedRepo (storage pfx distribution kind : String)
    (bindings : List (String × String)) : Option PublishedRepo :=
  if (bindings.map Prod.fst).Nodup then
    some { storage := storage, pfx := pfx, distribution := distribution,
           sourceKind := kind, sourceList := bindings,
           label := "", origin := "", notAutomatic := "", butAutomaticUpgrades := "",
           skipContents := false, skipBz2 := false,
           acquireByHash := false, multiDist := false }
  else none

/-- Outcome of the pre-scheduling phase of a create request: either the
handler aborted with a status code before `maybeRunTaskInBackground`, or a
task was admitted with the given declared resource keys and prepared
published repo.  `aborts` records `AbortWithJSONError` calls the handler made
while nevertheless continuing (possible only through the missing `return` at
lines 217-220). -/
inductive CreateResult where
  | earlyAbort (code : Nat)
  | scheduled (aborts : List Nat) (resources : List ResourceKey) (published : PublishedRepo)
  deriving DecidableEq

/-- `api/publish.go` lines 132-240 (pre-task phase of
`apiPublishRepoOrSnapshot`): signer init (500 on failure), empty-sources
check (400), per-kind source resolution, `NewPublishedRepo` (500 on failure),
then admission of the task with the per-source keys plus the target identity
key.  Unknown source kinds answer 400 (lines 224-227). -/
def apiPublishRepoOrSnapshot (env : Env) (storage pfx : String) (b : CreateBody) :
    CreateResult :=
  if env.signerFails then .earlyAbort 500
  else if b.sources.length = 0 then .earlyAbort 400
  else if b.sourceKind = SourceSnapshot then
    match resolveSnapshots env b.sources with
    | .error code => .earlyAbort code
    | .ok (bindings, keys) =>
      match newPublishedRepo storage pfx b.distribution b.sourceKind bindings with
      | none => .earlyAbort 500
      | some published =>
        .scheduled [] (keys ++ [.publishedKey published.storage published.pfx published.distribution])
          published
  else if b.sourceKind = SourceLocalRepo then
    match resolveLocalRepos env b.sources with
    | .error code => .earlyAbort code
    | .ok (aborts, bindings, keys) =>
      match newPublishedRepo storage pfx b.distribution b.sourceKind bindings with
      | none => .earlyAbort 500
      | some published =>
        .scheduled aborts
          (keys ++ [.publishedKey published.storage published.pfx published.distribution])
          published
  else .earlyAbort 400

/-- `api/publish.go` lines 249-276 (inside the create task body): apply the
request's metadata and flag fields to the prepared repo; `SkipContents` and
`SkipBz2` default to the server configuration. -/
def applyCreateFlags (b : CreateBody) (defSkipContents defSkipBz2 : Bool)
    (p : PublishedRepo) : PublishedRepo :=
  { p with
    origin := if b.origin ≠ "" then b.origin else p.origin,
    notAutomatic := if b.notAutomatic ≠ "" then b.notAutomatic else p.notAutomatic,
    butAutomaticUpgrades :=
      if b.butAutomaticUpgrades ≠ "" then b.butAutomaticUpgrades else p.butAutomaticUpgrades,
    label := b.label,
    skipContents := b.skipContents.getD defSkipContents,
    skipBz2 := b.skipBz2.getD defSkipBz2,
    acquireByHash := b.acquireByHash.getD p.acquireByHash,
    multiDist := b.multiDist.getD p.multiDist }

/-- Terminal result of a task body: HTTP-like status code and whether the
scheduler records the task as succeeded. -/
structure BodyResult where
  code : Nat
  ok : Bool
  deriving DecidableEq

/-- `api/publish.go` lines 240-295 (the create task body, run by the
scheduler after the resource keys are acquired): apply the flag mutations,
query the Record Store for a duplicate identity (400 without touching the
store when one exists), publish (500 on failure), then commit via
`collection.Add` (500 on failure; 201 with the record appended on success).
-/
def createTaskBody (env : Env) (b : CreateBody) (published : PublishedRepo)
    (store : Store) : BodyResult × Store :=
  let p := applyCreateFlags b env.configSkipContents env.configSkipBz2 published
  match checkDuplicate store p with
  | some _ => (⟨400, false⟩, store)
  | none =>
    if env.publishFails then (⟨500, false⟩, store)
    else if env.dbAddFails then (⟨500, false⟩, store)
    else (⟨201, true⟩, store ++ [p])

/-! ## Update (`apiPublishUpdateSwitch`, `api/publish.go` lines 310-521) -/

/-- The JSON body bound at `api/publish.go` lines 315-331.  `snapshots` and
`sources` are `none` when the corresponding JSON field is absent (Go `nil`
slice), `some l` when present. -/
structure UpdateBody where
  acquireByHash : Option Bool
  forceOverwrite : Bool
  multiDist : Option Bool
  skipBz2 : Option Bool
  skipCleanup : Option Bool
  skipContents : Option Bool
  snapshots : Option (List (String × String))
  sources : Option (List (String × String))
  deriving DecidableEq

/-- `api/publish.go` lines 372-379: iterate over the published repo's
current components and remove (and track) every component that has no entry
in the new sources map. -/
def removalGo (m : List (String × String)) :
    PublishedRepo → List String → PublishedRepo × List String
  | p, [] => (p, [])
  | p, c :: rest =>
    match alookup m c with
    | some _ => removalGo m p rest
    | none =>
      let r := removalGo m (removeComponent p c) rest
      (r.1, c :: r.2)

def removalPhase (p : PublishedRepo) (m : List (String × String)) :
    PublishedRepo × List String :=
  removalGo m p p.components

/-- `api/publish.go` lines 390-400 and 438-448: resolve one source name in
the collection matching the published repo's kind; 404 on an unknown name,
500 on a `LoadComplete` failure (both with `return`). -/
def resolveUpdateSource (env : Env) (kind name : String) : Except Nat String :=
  if kind = SourceLocalRepo then
    match findByName env.localRepos name with
    | none => .error 404
    | some repo => if name ∈ env.localLoadFail then .error 500 else .ok repo.uuid
  else
    match findByName env.snapshots name with
    | none => .error 404
    | some snap => if name ∈ env.snapLoadFail then .error 500 else .ok snap.uuid

/-- `api/publish.go` lines 389-414 (local repos) and 437-462 (snapshots) —
the two loops have identical structure and are modelled once, dispatching on
`kind`: for each `(component, name)` entry of the sources map, resolve the
source; if the component is bound to a different UUID (or unbound), rebind
it and track the component and name as updated; leave it untouched when the
bound UUID is unchanged. -/
def bindPhase (env : Env) (kind : String) :
    PublishedRepo → List String → List String → List (String × String) →
    Except Nat (PublishedRepo × List String × List String)
  | p, upC, upS, [] => .ok (p, upC, upS)
  | p, upC, upS, (component, name) :: rest =>
    match resolveUpdateSource env kind name with
    | .error code => .error code
    | .ok uuid =>
      match alookup p.sourceList component with
      | some u =>
        if u = uuid then bindPhase env kind p upC upS rest
        else bindPhase env kind (upsertSource p component uuid)
          (upC ++ [component]) (upS ++ [name]) rest
      | none => bindPhase env kind (upsertSource p component uuid)
          (upC ++ [component]) (upS ++ [name]) rest

/-- `api/publish.go` lines 468-482: apply the optional flag overrides. -/
def applyUpdateFlags (b : UpdateBody) (p : PublishedRepo) : PublishedRepo :=
  { p with
    skipContents := b.skipContents.getD p.skipContents,
    skipBz2 := b.skipBz2.getD p.skipBz2,
    acquireByHash := b.acquireByHash.getD p.acquireByHash,
    multiDist := b.multiDist.getD p.multiDist }

/-- Outcome of the pre-scheduling phase of an update request: an abort before
`maybeRunTaskInBackground`, or an admitted task with the declared resource
keys, the prepared (already mutated) published repo, the tracked updated
components/sources and removed components, and whether the legacy-`Snapshots`
deprecation warning was printed. -/
inductive UpdateResult where
  | earlyAbort (code : Nat)
  | scheduled (resources : List ResourceKey) (published : PublishedRepo)
      (updatedComponents updatedSources removedComponents : List String)
      (deprecationWarned : Bool)
  deriving DecidableEq

/-- `api/publish.go` lines 484-488: the declared resource set is the single
identity key of the published repo, and the task is admitted. -/
def updateFinish (b : UpdateBody) (p2 : PublishedRepo)
    (upC upS removedComponents : List String) (dep : Bool) : UpdateResult :=
  let p3 := applyUpdateFlags b p2
  .scheduled [.publishedKey p3.storage p3.pfx p3.distribution] p3 upC upS removedComponents dep

/-- `api/publish.go` lines 423-437: the entry map the snapshot loop ranges
over — the legacy `Snapshots` list (with the deprecation warning) exactly
when `Sources` is entirely absent, otherwise the `Sources` map; ranging over
a nil Go map (both absent) visits nothing. -/
def snapshotEntries (b : UpdateBody) : List (String × String) :=
  if b.sources.isNone && b.snapshots.isSome then buildMap (b.snapshots.getD [])
  else
    match b.sources with
    | some srcs => buildMap srcs
    | none => []

/-- `api/publish.go` lines 382-466: dispatch on the published repo's source
kind.  Local repos: a non-empty legacy `Snapshots` list is rejected (404,
lines 383-385); with `Sources` present the sources map is rebound entry by
entry; with `Sources` absent every current component is marked updated and
refreshed via `UpdateLocalRepo` (lines 416-420, bindings unchanged).
Snapshots: the loop runs over `snapshotEntries b`, and the deprecation flag
is set exactly when the legacy list was used.  Any other kind answers 500. -/
def updateByKind (env : Env) (b : UpdateBody) (published1 : PublishedRepo)
    (removedComponents : List String) : UpdateResult :=
  if published1.sourceKind = SourceLocalRepo then
    if (b.snapshots.getD []).length > 0 then .earlyAbort 404
    else
      match b.sources with
      | some srcs =>
        match bindPhase env SourceLocalRepo published1 [] [] (buildMap srcs) with
        | .error code => .earlyAbort code
        | .ok (p2, upC, upS) => updateFinish b p2 upC upS removedComponents false
      | none => updateFinish b published1 published1.components [] removedComponents false
  else if published1.sourceKind = SourceSnapshot then
    match bindPhase env SourceSnapshot published1 [] [] (snapshotEntries b) with
    | .error code => .earlyAbort code
    | .ok (p2, upC, upS) =>
      updateFinish b p2 upC upS removedComponents (b.sources.isNone && b.snapshots.isSome)
  else .earlyAbort 500

/-- `api/publish.go` lines 358-380: build the sources map when `Sources` is
present and remove the components absent from it, then continue with the
kind dispatch. -/
def updateAfterLoad (env : Env) (b : UpdateBody) (published : PublishedRepo) :
    UpdateResult :=
  let removal :=
    match b.sources with
    | some srcs => removalPhase published (buildMap srcs)
    | none => (published, [])
  updateByKind env b removal.1 removal.2

/-- `api/publish.go` lines 310-357 (pre-task phase of
`apiPublishUpdateSwitch`): signer init (500), lookup of the published repo by
identity (404), `LoadComplete` (500), then the in-handler mutation phases.
All of this — including every mutation of the `PublishedRepo` value — runs
before the task is admitted to the scheduler. -/
def apiPublishUpdateSwitch (env : Env) (store : Store)
    (storage pfx distribution : String) (b : UpdateBody) : UpdateResult :=
  if env.signerFails then .earlyAbort 500
  else
    match identFind store storage pfx distribution with
    | none => .earlyAbort 404
    | some published =>
      if env.pubLoadFail then .earlyAbort 500
      else updateAfterLoad env b published

/-- `api/publish.go` lines 489-520 (the update task body): publish (500 on
failure), commit via `collection.Update` (500 on failure), then — unless
`SkipCleanup` — run `CleanupPrefixComponentFiles` and, when components were
removed, `RemoveDirs` for each of them; a failure of either cleanup step
returns 500 even though the publish and the record-store commit already
succeeded and are not reverted. -/
def updateTaskBody (env : Env) (published : PublishedRepo)
    (removedComponents : List String) (skipCleanup : Bool) (store : Store) :
    BodyResult × Store :=
  if env.publishFails then (⟨500, false⟩, store)
  else if env.dbUpdateFails then (⟨500, false⟩, store)
  else
    let store1 := identReplace store published
    if ¬ skipCleanup then
      if env.cleanupFails then (⟨500, false⟩, store1)
      else if removedComponents.length > 0 ∧ env.removeDirsFails then (⟨500, false⟩, store1)
      else (⟨200, true⟩, store1)
    else (⟨200, true⟩, store1)

/-! ## Drop (`apiPublishDrop`, `api/publish.go` lines 537-566) -/

/-- Go `c.Request.URL.Query().Get(key)`: exact, case-sensitive key lookup
returning `""` when the key is absent. -/
def queryGet (query : List (String × String)) (key : String) : String :=
  (alookup query key).getD ""

/-- Outcome of the pre-scheduling phase of a drop request. -/
inductive DropResult where
  | earlyAbort (code : Nat)
  | scheduled (resources : List ResourceKey) (force skipCleanup : Bool)
  deriving DecidableEq

/-- `api/publish.go` lines 537-557 (pre-task phase of `apiPublishDrop`):
`force` is read from query key `"force"` and `skipCleanup` from query key
`"SkipCleanup"` (note the capital S, lines 538-539), each enabled by value
`"1"`; the published repo is looked up by identity (404), and the task is
admitted with the identity key alone. -/
def apiPublishDrop (store : Store) (query : List (String × String))
    (storage pfx distribution : String) : DropResult :=
  let force := queryGet query "force" == "1"
  let skipCleanup := queryGet query "SkipCleanup" == "1"
  match identFind store storage pfx distribution with
  | none => .earlyAbort 404
  | some published =>
    .scheduled [.publishedKey published.storage published.pfx published.distribution]
      force skipCleanup

/-- Modelled from the spec: `PublishedRepoCollection.Remove` (outside
`src/`, called by the drop task body at lines 558-559) deletes the record
and, unless `skipCleanup`, removes the on-disk files of the publish point;
`filesPresent` abstracts whether such files exist on disk. -/
def dropTaskBody (env : Env) (storage pfx distribution : String)
    (_force skipCleanup : Bool) (store : Store) (filesPresent : Bool) :
    BodyResult × Store × Bool :=
  if env.dropRemoveFails then (⟨500, false⟩, store, filesPresent)
  else (⟨200, true⟩, identRemove store storage pfx distribution,
        if skipCleanup then filesPresent else false)

/-- A fully-successful environment: every external collaborator succeeds,
the snapshot collection holds `snap1` with UUID `u1`. -/
def envW : Env :=
  { snapshots := [⟨"snap1", "u1"⟩], localRepos := [],
    snapLoadFail := [], localLoadFail := [],
    pubLoadFail := false, signerFails := false, publishFails := false,
    dbAddFails := false, dbUpdateFails := false, cleanupFails := false,
    removeDirsFails := false, dropRemoveFails := false,
    configSkipContents := false, configSkipBz2 := false }

/-- A create request publishing snapshot `snap1` as component `main` of
distribution `stable`. -/
def bW : CreateBody :=
  { sourceKind := "snapshot", sources := [("main", "snap1")], distribution := "stable",
    label := "", origin := "", notAutomatic := "", butAutomaticUpgrades := "",
    forceOverwrite := false, skipContents := none, skipBz2 := none,
    acquireByHash := none, multiDist := none }

/-- The published repo prepared by `apiPublishRepoOrSnapshot envW "" "." bW`. -/
def pW : PublishedRepo :=
  { storage := "", pfx := ".", distribution := "stable", sourceKind := "snapshot",
    sourceList := [("main", "u1")], label := "", origin := "", notAutomatic := "",
    butAutomaticUpgrades := "", skipContents := false, skipBz2 := false,
    acquireByHash := false, multiDist := false }

/-- The environment of the C9 failing input: local repo `repo1` (UUID `u1`)
exists but loading its complete data fails. -/
def envC9 : Env :=
  { envW with snapshots := [], localRepos := [⟨"repo1", "u1"⟩], localLoadFail := ["repo1"] }

/-- The same situation on the snapshot branch: snapshot `snap1` exists but
loading its complete data fails. -/
def envC9s : Env :=
  { envW with snapLoadFail := ["snap1"] }

/-- Create request binding local repo `repo1` as component `main`. -/
def bC9 : CreateBody :=
  { bW with sourceKind := "local", sources := [("main", "repo1")] }

/-- The published repo the C9 request prepares despite the load failure. -/
def pC9 : PublishedRepo :=
  { pW with sourceKind := "local" }

/-- An update request body with every optional field absent. -/
def bU0 : UpdateBody :=
  { acquireByHash := none, forceOverwrite := false, multiDist := none, skipBz2 := none,
    skipCleanup := none, skipContents := none, snapshots := none, sources := none }

/-- A local-repo-kind published repo binding `main -> u1` and
`contrib -> u2`. -/
def pubC2L : PublishedRepo :=
  { pW with sourceKind := "local", sourceList := [("main", "u1"), ("contrib", "u2")] }

def envC2 : Env :=
  { envW with snapshots := [], localRepos := [⟨"repo9", "u9"⟩, ⟨"repoX", "uX"⟩] }

def bC2 : UpdateBody := { bU0 with sources := some [("main", "repo9"), ("extra", "repoX")] }

def pC2after : PublishedRepo := { pubC2L with sourceList := [("main", "u9"), ("extra", "uX")] }

def envC3 : Env := { envW with snapshots := [], localRepos := [⟨"repo1", "u1"⟩] }

def bC3 : UpdateBody := { bU0 with sources := some [("main", "repo1")] }

def pC3after : PublishedRepo := { pubC2L with sourceList := [("main", "u1")] }

def envC4 : Env := { envW with snapshots := [⟨"snapNew", "u9"⟩] }

def bC4 : UpdateBody := { bU0 with sources := some [("main", "snapNew")] }

def pC4after : PublishedRepo := { pW with sourceList := [("main", "u9")] }

def envC5 : Env := { envW with cleanupFails := true }

/-- A snapshot-kind published repo binding `main -> u1` and `contrib -> u2`. -/
def pubC6 : PublishedRepo := { pW with sourceList := [("main", "u1"), ("contrib", "u2")] }

def envC6 : Env := { envW with snapshots := [⟨"snapNew", "u9"⟩] }

/-- Legacy form: only the deprecated `Snapshots` list, mentioning `main`
but not `contrib`. -/
def bC6 : UpdateBody := { bU0 with snapshots := some [("main", "snapNew")] }

/-- The same switch expressed through the newer `Sources` list. -/
def bC6s : UpdateBody := { bU0 with sources := some [("main", "snapNew")] }

def pC6after : PublishedRepo := { pubC6 with sourceList := [("main", "u9"), ("contrib", "u2")] }

def pC6safter : PublishedRepo := { pubC6 with sourceList := [("main", "u9")] }

/-! ## Theorems -/

theorem alookup_mapInsert (m : List (String × String)) (k v key : String) :
    alookup (mapInsert m k v) key = if k = key then some v else alookup m key := by
  induction m with
  | nil =>
    by_cases hk : k = key <;> simp [mapInsert, alookup, hk]
  | cons e rest ih =>
    obtain ⟨k0, v0⟩ := e
    by_cases h0 : k0 = k
    · subst h0
      by_cases hk : k0 = key <;> simp [mapInsert, alookup, hk]
    · by_cases hk0 : k0 = key
      · subst hk0
        have hk : ¬ k = k0 := fun hc => h0 hc.symm
        simp [mapInsert, alookup, h0, hk]
      · simp [mapInsert, alookup, h0, hk0, ih]

theorem alookup_eq_none_iff (m : List (String × String)) (key : String) :
    alookup m key = none ↔ key ∉ m.map Prod.fst := by
  induction m with
  | nil => simp [alookup]
  | cons e rest ih =>
    obtain ⟨k0, v0⟩ := e
    by_cases h : k0 = key
    · subst h
      simp [alookup]
    · have hne : ¬ key = k0 := fun hc => h hc.symm
      simp [alookup, h, ih, hne]

theorem mapInsert_keys (m : List (String × String)) (k v : String) :
    (mapInsert m k v).map Prod.fst =
      if k ∈ m.map Prod.fst then m.map Prod.fst else m.map Prod.fst ++ [k] := by
  induction m with
  | nil => simp [mapInsert]
  | cons e rest ih =>
    obtain ⟨k0, v0⟩ := e
    by_cases h0 : k0 = k
    · subst h0
      simp [mapInsert]
    · by_cases hk : k ∈ rest.map Prod.fst <;>
        simp [mapInsert, h0, ih, hk, Ne.symm h0]

theorem mapInsert_keys_nodup (m : List (String × String)) (k v : String)
    (h : (m.map Prod.fst).Nodup) : ((mapInsert m k v).map Prod.fst).Nodup := by
  rw [mapInsert_keys]
  by_cases hk : k ∈ m.map Prod.fst
  · simpa [hk] using h
  · simp only [hk, if_false]
    rw [List.nodup_append]
    refine ⟨h, List.nodup_singleton k, fun a ha hsing => ?_⟩
    have hak : a = k := by simpa using hsing
    exact hk (hak ▸ ha)

theorem buildMap_keys_nodup (l : List (String × String)) :
    ((buildMap l).map Prod.fst).Nodup := by
  have general : ∀ (l : List (String × String)) (m : List (String × String)),
      (m.map Prod.fst).Nodup →
      ((l.foldl (fun m e => mapInsert m e.1 e.2) m).map Prod.fst).Nodup := by
    intro l
    induction l with
    | nil => intro m hm; simpa using hm
    | cons e rest ih =>
      intro m hm
      exact ih (mapInsert m e.1 e.2) (mapInsert_keys_nodup m e.1 e.2 hm)
  exact general l [] (by simp)

theorem alookup_of_mem_nodup (m : List (String × String)) (c n : String)
    (hnd : (m.map Prod.fst).Nodup) (hmem : (c, n) ∈ m) : alookup m c = some n := by
  induction m with
  | nil => simp at hmem
  | cons e rest ih =>
    obtain ⟨k0, v0⟩ := e
    rcases List.mem_cons.mp hmem with h | h
    · cases h
      simp [alookup]
    · have hk0 : k0 ≠ c := by
        intro hc
        subst hc
        have hmemkey : k0 ∈ rest.map Prod.fst :=
          List.mem_map.mpr ⟨(k0, n), h, rfl⟩
        exact (List.nodup_cons.mp (by simpa using hnd)).1 hmemkey
      have hrest : (rest.map Prod.fst).Nodup := (List.nodup_cons.mp (by simpa using hnd)).2
      simp [alookup, hk0, ih hrest h]

theorem replaceAllF_ne_nil (old new : List Char) (hnew : new ≠ []) :
    ∀ (fuel : Nat) (s : List Char), s ≠ [] → replaceAllF old new fuel s ≠ [] := by
  intro fuel s hs
  match fuel, s with
  | fuel, [] => exact absurd rfl hs
  | 0, c :: rest => simp [replaceAllF]
  | fuel + 1, c :: rest =>
    simp only [replaceAllF]
    split
    · exact fun hcontra => hnew (List.append_eq_nil.mp hcontra).1
    · simp

theorem replaceAll_ne_nil (old new : List Char) (hnew : new ≠ [])
    (s : List Char) (hs : s ≠ []) : replaceAll old new s ≠ [] :=
  replaceAllF_ne_nil old new hnew s.length s hs

/-- C10: the path decoder returns `"."` on the empty string, and otherwise
returns the input with every `'_'` first replaced by `'/'` and then every
non-overlapping leftmost occurrence of `"//"` replaced by `'_'`; in
particular `"__"` decodes to `"_"`, a single `"_"` decodes to `"/"`, and
`"___"` decodes to `"_/"` rather than `"/_"`. -/
theorem parse_escaped_path_spec :
    parseEscapedPath [] = ['.']
    ∧ (∀ p : List Char, p ≠ [] →
        parseEscapedPath p = replaceAll ['/', '/'] ['_'] (replaceAll ['_'] ['/'] p))
    ∧ parseEscapedPath ['_', '_'] = ['_']
    ∧ parseEscapedPath ['_'] = ['/']
    ∧ parseEscapedPath ['_', '_', '_'] = ['_', '/']
    ∧ parseEscapedPath ['_', '_', '_'] ≠ ['/', '_'] := by
  refine ⟨by decide, ?_, by decide, by decide, by decide, by decide⟩
  intro p hp
  have h1 : replaceAll ['_'] ['/'] p ≠ [] :=
    replaceAll_ne_nil ['_'] ['/'] (by simp) p hp
  have h2 : replaceAll ['/', '/'] ['_'] (replaceAll ['_'] ['/'] p) ≠ [] :=
    replaceAll_ne_nil ['/', '/'] ['_'] (by simp) _ h1
  simp [parseEscapedPath, h2]

theorem parse_escaped_path_spec_witness :
    (['a', '_', 'b'] : List Char) ≠ []
    ∧ parseEscapedPath ['a', '_', 'b']
      = replaceAll ['/', '/'] ['_'] (replaceAll ['_'] ['/'] ['a', '_', 'b']) :=
  ⟨by decide, parse_escaped_path_spec.2.1 ['a', '_', 'b'] (by decide)⟩

/-! ## Helper lemmas -/

theorem identFind_some (store : Store) (a b c : String) (r : PublishedRepo)
    (h : identFind store a b c = some r) :
    r.storage = a ∧ r.pfx = b ∧ r.distribution = c := by
  induction store with
  | nil => simp [identFind] at h
  | cons q rest ih =>
    rw [identFind] at h
    split at h
    · cases h
      assumption
    · exact ih h

theorem identFind_append (l1 l2 : Store) (a b c : String) :
    identFind (l1 ++ l2) a b c =
      match identFind l1 a b c with
      | some r => some r
      | none => identFind l2 a b c := by
  induction l1 with
  | nil => simp [identFind]
  | cons q rest ih =>
    rw [List.cons_append, identFind, identFind]
    split
    · rfl
    · exact ih

theorem identCount_append (l1 l2 : Store) (a b c : String) :
    identCount (l1 ++ l2) a b c = identCount l1 a b c + identCount l2 a b c := by
  simp [identCount, List.filter_append]

theorem identCount_zero_iff (store : Store) (a b c : String) :
    identCount store a b c = 0 ↔ identFind store a b c = none := by
  induction store with
  | nil => simp [identCount, identFind]
  | cons q rest ih =>
    by_cases h : q.storage = a ∧ q.pfx = b ∧ q.distribution = c
    · simp [identCount, identFind, h, List.filter_cons]
    · simpa [identCount, identFind, h, List.filter_cons] using ih

theorem alookup_filter_ne (l : List (String × String)) (c0 key : String) :
    alookup (l.filter (fun e => e.1 ≠ c0)) key =
      if key = c0 then none else alookup l key := by
  induction l with
  | nil => by_cases h : key = c0 <;> simp [alookup, h]
  | cons e rest ih =>
    obtain ⟨k, v⟩ := e
    by_cases hk : k = c0
    · have hdec : decide ((k, v).1 ≠ c0) = false := by simp [hk]
      rw [List.filter_cons, hdec]
      simp only [Bool.false_eq_true, if_false]
      rw [ih]
      by_cases hkey : key = c0
      · simp [hkey]
      · have hkne : ¬ k = key := by
          rw [hk]; exact fun hc => hkey hc.symm
        rw [if_neg hkey, if_neg hkey, alookup, if_neg hkne]
    · have hdec : decide ((k, v).1 ≠ c0) = true := by simp [hk]
      rw [List.filter_cons, hdec]
      simp only [if_true]
      by_cases hky : k = key
      · subst hky
        have hkc0 : ¬ k = c0 := hk
        simp [alookup, hkc0]
      · rw [alookup, if_neg hky, ih, alookup, if_neg hky]

theorem alookup_removeComponent (p : PublishedRepo) (c0 key : String) :
    alookup (removeComponent p c0).sourceList key =
      if key = c0 then none else alookup p.sourceList key := by
  simp only [removeComponent]
  exact alookup_filter_ne p.sourceList c0 key

theorem alookup_upsertSource (p : PublishedRepo) (c u key : String) :
    alookup (upsertSource p c u).sourceList key =
      if c = key then some u else alookup p.sourceList key := by
  simp only [upsertSource]
  exact alookup_mapInsert p.sourceList c u key

theorem removalGo_snd (m : List (String × String)) (comps : List String) :
    ∀ p : PublishedRepo,
      (removalGo m p comps).2 = comps.filter (fun c => (alookup m c).isNone) := by
  induction comps with
  | nil => intro p; simp [removalGo]
  | cons c0 rest ih =>
    intro p
    cases halo : alookup m c0 with
    | some v => simp [removalGo, halo, ih, List.filter_cons]
    | none => simp [removalGo, halo, ih, List.filter_cons]

theorem removalGo_fst_fields (m : List (String × String)) (comps : List String) :
    ∀ p : PublishedRepo,
      (removalGo m p comps).1.storage = p.storage
      ∧ (removalGo m p comps).1.pfx = p.pfx
      ∧ (removalGo m p comps).1.distribution = p.distribution
      ∧ (removalGo m p comps).1.sourceKind = p.sourceKind := by
  induction comps with
  | nil => intro p; simp [removalGo]
  | cons c0 rest ih =>
    intro p
    cases halo : alookup m c0 with
    | some v => simpa [removalGo, halo] using ih p
    | none => simpa [removalGo, halo, removeComponent] using ih (removeComponent p c0)

theorem removalGo_alookup (m : List (String × String)) (comps : List String) :
    ∀ (p : PublishedRepo) (c : String),
      alookup (removalGo m p comps).1.sourceList c =
        if c ∈ comps ∧ alookup m c = none then none else alookup p.sourceList c := by
  induction comps with
  | nil => intro p c; simp [removalGo]
  | cons c0 rest ih =>
    intro p c
    cases halo : alookup m c0 with
    | some v =>
      rw [show removalGo m p (c0 :: rest) = removalGo m p rest by rw [removalGo, halo]]
      rw [ih p c]
      by_cases hc : c = c0
      · subst hc
        simp [halo]
      · by_cases hcond : c ∈ rest ∧ alookup m c = none
        · simp [hcond, List.mem_cons]
        · simp [hcond, List.mem_cons, hc]
    | none =>
      rw [show (removalGo m p (c0 :: rest)).1 = (removalGo m (removeComponent p c0) rest).1
            by rw [removalGo, halo]]
      rw [ih (removeComponent p c0) c]
      by_cases hc : c = c0
      · subst hc
        by_cases hrest : c ∈ rest ∧ alookup m c = none
        · simp [hrest, halo]
        · simp [hrest, halo, alookup_removeComponent]
      · by_cases hrest : c ∈ rest ∧ alookup m c = none
        · simp [hrest, List.mem_cons]
        · simp [hrest, List.mem_cons, hc, alookup_removeComponent]

theorem bindPhase_ok_fields (env : Env) (kind : String) (entries : List (String × String)) :
    ∀ (p : PublishedRepo) (upC upS : List String) (p2 : PublishedRepo) (upC2 upS2 : List String),
      bindPhase env kind p upC upS entries = .ok (p2, upC2, upS2) →
      p2.storage = p.storage ∧ p2.pfx = p.pfx ∧ p2.distribution = p.distribution
      ∧ p2.sourceKind = p.sourceKind := by
  induction entries with
  | nil =>
    intro p upC upS p2 upC2 upS2 h
    simp [bindPhase] at h
    obtain ⟨h1, _, _⟩ := h
    subst h1
    simp
  | cons e rest ih =>
    intro p upC upS p2 upC2 upS2 h
    obtain ⟨component, name⟩ := e
    rw [bindPhase] at h
    cases hres : resolveUpdateSource env kind name with
    | error code => simp [hres] at h
    | ok uuid =>
      simp only [hres] at h
      cases halo : alookup p.sourceList component with
      | some u =>
        simp only [halo] at h
        by_cases hu : u = uuid
        · rw [if_pos hu] at h
          exact ih p upC upS p2 upC2 upS2 h
        · rw [if_neg hu] at h
          simpa [upsertSource] using ih _ _ _ _ _ _ h
      | none =>
        simp only [halo] at h
        simpa [upsertSource] using ih _ _ _ _ _ _ h

theorem bindPhase_not_mem (env : Env) (kind c : String) (entries : List (String × String)) :
    ∀ (p : PublishedRepo) (upC upS : List String) (p2 : PublishedRepo) (upC2 upS2 : List String),
      c ∉ entries.map Prod.fst →
      bindPhase env kind p upC upS entries = .ok (p2, upC2, upS2) →
      alookup p2.sourceList c = alookup p.sourceList c ∧ (c ∈ upC2 ↔ c ∈ upC) := by
  induction entries with
  | nil =>
    intro p upC upS p2 upC2 upS2 _ h
    simp [bindPhase] at h
    obtain ⟨h1, h2, _⟩ := h
    subst h1
    subst h2
    simp
  | cons e rest ih =>
    intro p upC upS p2 upC2 upS2 hmem h
    obtain ⟨component, name⟩ := e
    have hcomp : component ≠ c := by
      intro hc
      exact hmem (by simp [hc])
    have hrest : c ∉ rest.map Prod.fst := by
      intro hc
      exact hmem (by simp [hc])
    rw [bindPhase] at h
    cases hres : resolveUpdateSource env kind name with
    | error code => simp [hres] at h
    | ok uuid =>
      simp only [hres] at h
      cases halo : alookup p.sourceList component with
      | some u =>
        simp only [halo] at h
        by_cases hu : u = uuid
        · rw [if_pos hu] at h
          exact ih p upC upS p2 upC2 upS2 hrest h
        · rw [if_neg hu] at h
          obtain ⟨ha, hb⟩ := ih _ _ _ _ _ _ hrest h
          refine ⟨?_, ?_⟩
          · rw [ha, alookup_upsertSource, if_neg hcomp]
          · rw [hb]
            simp [List.mem_append, Ne.symm hcomp]
      | none =>
        simp only [halo] at h
        obtain ⟨ha, hb⟩ := ih _ _ _ _ _ _ hrest h
        refine ⟨?_, ?_⟩
        · rw [ha, alookup_upsertSource, if_neg hcomp]
        · rw [hb]
          simp [List.mem_append, Ne.symm hcomp]

theorem bindPhase_mem (env : Env) (kind c n u : String) (entries : List (String × String)) :
    ∀ (p : PublishedRepo) (upC upS : List String) (p2 : PublishedRepo) (upC2 upS2 : List String),
      (entries.map Prod.fst).Nodup →
      (c, n) ∈ entries →
      resolveUpdateSource env kind n = .ok u →
      bindPhase env kind p upC upS entries = .ok (p2, upC2, upS2) →
      (alookup p.sourceList c = some u →
         alookup p2.sourceList c = some u ∧ (c ∈ upC2 ↔ c ∈ upC))
      ∧ (alookup p.sourceList c ≠ some u →
         alookup p2.sourceList c = some u ∧ c ∈ upC2) := by
  induction entries with
  | nil =>
    intro p upC upS p2 upC2 upS2 _ hmem
    simp at hmem
  | cons e rest ih =>
    intro p upC upS p2 upC2 upS2 hnd hmem hres h
    obtain ⟨component, name⟩ := e
    have hndrest : (rest.map Prod.fst).Nodup := (List.nodup_cons.mp (by simpa using hnd)).2
    rcases List.mem_cons.mp hmem with hhead | htail
    · cases hhead
      have hcnotrest : c ∉ rest.map Prod.fst := (List.nodup_cons.mp (by simpa using hnd)).1
      rw [bindPhase] at h
      simp only [hres] at h
      cases halo : alookup p.sourceList c with
      | some u0 =>
        simp only [halo] at h
        by_cases hu : u0 = u
        · rw [if_pos hu] at h
          obtain ⟨ha, hb⟩ := bindPhase_not_mem env kind c rest p upC upS p2 upC2 upS2 hcnotrest h
          refine ⟨?_, ?_⟩
          · intro _
            exact ⟨by rw [ha, halo, hu], hb⟩
          · intro hne
            exact absurd (by rw [hu]) hne
        · rw [if_neg hu] at h
          obtain ⟨ha, hb⟩ := bindPhase_not_mem env kind c rest _ _ _ _ _ _ hcnotrest h
          refine ⟨?_, ?_⟩
          · intro hsome
            exact absurd (Option.some.inj hsome) hu
          · intro _
            refine ⟨by rw [ha, alookup_upsertSource, if_pos rfl], ?_⟩
            rw [hb]
            simp
      | none =>
        simp only [halo] at h
        obtain ⟨ha, hb⟩ := bindPhase_not_mem env kind c rest _ _ _ _ _ _ hcnotrest h
        refine ⟨?_, ?_⟩
        · intro hsome
          exact absurd hsome (by simp)
        · intro _
          refine ⟨by rw [ha, alookup_upsertSource, if_pos rfl], ?_⟩
          rw [hb]
          simp
    · have hcomp : component ≠ c := by
        intro hc
        subst hc
        have hck : component ∈ rest.map Prod.fst :=
          List.mem_map.mpr ⟨(component, n), htail, rfl⟩
        exact (List.nodup_cons.mp (by simpa using hnd)).1 hck
      rw [bindPhase] at h
      cases hresh : resolveUpdateSource env kind name with
      | error code => simp [hresh] at h
      | ok uuid =>
        simp only [hresh] at h
        cases halo : alookup p.sourceList component with
        | some u0 =>
          simp only [halo] at h
          by_cases hu : u0 = uuid
          · rw [if_pos hu] at h
            exact ih _ _ _ _ _ _ hndrest htail hres h
          · rw [if_neg hu] at h
            have hih := ih _ _ _ _ _ _ hndrest htail hres h
            rw [alookup_upsertSource, if_neg hcomp] at hih
            refine ⟨?_, ?_⟩
            · intro hsome
              obtain ⟨ha, hb⟩ := hih.1 hsome
              refine ⟨ha, ?_⟩
              rw [hb]
              simp [List.mem_append, Ne.symm hcomp]
            · intro hne
              exact hih.2 hne
        | none =>
          simp only [halo] at h
          have hih := ih _ _ _ _ _ _ hndrest htail hres h
          rw [alookup_upsertSource, if_neg hcomp] at hih
          refine ⟨?_, ?_⟩
          · intro hsome
            obtain ⟨ha, hb⟩ := hih.1 hsome
            refine ⟨ha, ?_⟩
            rw [hb]
            simp [List.mem_append, Ne.symm hcomp]
          · intro hne
            exact hih.2 hne

theorem newPublishedRepo_some (storage pfx distribution kind : String)
    (bindings : List (String × String)) (p : PublishedRepo)
    (h : newPublishedRepo storage pfx distribution kind bindings = some p) :
    p.storage = storage ∧ p.pfx = pfx ∧ p.distribution = distribution
    ∧ p.sourceKind = kind ∧ p.sourceList = bindings := by
  unfold newPublishedRepo at h
  split at h
  · cases h
    simp
  · exact Option.noConfusion h

theorem applyCreateFlags_fields (b : CreateBody) (d1 d2 : Bool) (p : PublishedRepo) :
    (applyCreateFlags b d1 d2 p).storage = p.storage
    ∧ (applyCreateFlags b d1 d2 p).pfx = p.pfx
    ∧ (applyCreateFlags b d1 d2 p).distribution = p.distribution :=
  ⟨rfl, rfl, rfl⟩

theorem applyUpdateFlags_fields (b : UpdateBody) (p : PublishedRepo) :
    (applyUpdateFlags b p).storage = p.storage
    ∧ (applyUpdateFlags b p).pfx = p.pfx
    ∧ (applyUpdateFlags b p).distribution = p.distribution
    ∧ (applyUpdateFlags b p).sourceKind = p.sourceKind
    ∧ (applyUpdateFlags b p).sourceList = p.sourceList :=
  ⟨rfl, rfl, rfl, rfl, rfl⟩

theorem create_scheduled_identity (env : Env) (storage pfx : String) (b : CreateBody)
    (ab : List Nat) (res : List ResourceKey) (p : PublishedRepo)
    (h : apiPublishRepoOrSnapshot env storage pfx b = .scheduled ab res p) :
    p.storage = storage ∧ p.pfx = pfx ∧ p.distribution = b.distribution := by
  unfold apiPublishRepoOrSnapshot at h
  split at h
  · exact CreateResult.noConfusion h
  · split at h
    · exact CreateResult.noConfusion h
    · split at h
      · cases hr : resolveSnapshots env b.sources with
        | error code => simp [hr] at h
        | ok pr =>
          obtain ⟨bindings, keys⟩ := pr
          simp only [hr] at h
          cases hn : newPublishedRepo storage pfx b.distribution b.sourceKind bindings with
          | none => simp [hn] at h
          | some published =>
            simp only [hn] at h
            cases h
            obtain ⟨h1, h2, h3, _, _⟩ := newPublishedRepo_some _ _ _ _ _ _ hn
            exact ⟨h1, h2, h3⟩
      · split at h
        · cases hr : resolveLocalRepos env b.sources with
          | error code => simp [hr] at h
          | ok tr =>
            obtain ⟨aborts, bindings, keys⟩ := tr
            simp only [hr] at h
            cases hn : newPublishedRepo storage pfx b.distribution b.sourceKind bindings with
            | none => simp [hn] at h
            | some published =>
              simp only [hn] at h
              cases h
              obtain ⟨h1, h2, h3, _, _⟩ := newPublishedRepo_some _ _ _ _ _ _ hn
              exact ⟨h1, h2, h3⟩
        · exact CreateResult.noConfusion h

theorem createTaskBody_ok (env : Env) (b : CreateBody) (published : PublishedRepo)
    (store store1 : Store) (r : BodyResult)
    (h : createTaskBody env b published store = (r, store1)) (hok : r.ok = true) :
    checkDuplicate store
        (applyCreateFlags b env.configSkipContents env.configSkipBz2 published) = none
    ∧ store1 = store ++ [applyCreateFlags b env.configSkipContents env.configSkipBz2 published]
    ∧ r = ⟨201, true⟩ := by
  simp only [createTaskBody] at h
  cases hd : checkDuplicate store
      (applyCreateFlags b env.configSkipContents env.configSkipBz2 published) with
  | some q =>
    simp only [hd] at h
    cases h
    simp at hok
  | none =>
    simp only [hd] at h
    split at h
    · cases h
      simp at hok
    · split at h
      · cases h
        simp at hok
      · cases h
        exact ⟨rfl, rfl, rfl⟩

theorem createTaskBody_duplicate (env : Env) (b : CreateBody) (published q : PublishedRepo)
    (store : Store)
    (hd : checkDuplicate store
        (applyCreateFlags b env.configSkipContents env.configSkipBz2 published) = some q) :
    createTaskBody env b published store = (⟨400, false⟩, store) := by
  simp [createTaskBody, hd]

/-- C1: for two create requests targeting the same identity
`(storage, pfx, distribution)`, the duplicate-identity check is performed
inside the locked task body — `createTaskBody` queries the record store it
receives at lock time — and once the first create's body has committed its
record, the second create's body fails with the duplicate error (400) while
leaving the store, and hence the first record, unmodified; exactly one
record with that identity exists afterward. -/
theorem create_duplicate_second_fails
    (env1 env2 : Env) (storage pfx : String) (b1 b2 : CreateBody) (store store1 : Store)
    (ab1 ab2 : List Nat) (res1 res2 : List ResourceKey) (p1 p2 : PublishedRepo)
    (r1 : BodyResult)
    (h1 : apiPublishRepoOrSnapshot env1 storage pfx b1 = .scheduled ab1 res1 p1)
    (h2 : createTaskBody env1 b1 p1 store = (r1, store1))
    (hok : r1.ok = true)
    (h3 : apiPublishRepoOrSnapshot env2 storage pfx b2 = .scheduled ab2 res2 p2)
    (hdist : b2.distribution = b1.distribution)
    (h0 : identCount store storage pfx b1.distribution = 0) :
    createTaskBody env2 b2 p2 store1 = (⟨400, false⟩, store1)
    ∧ identCount store1 storage pfx b1.distribution = 1
    ∧ store1 = store ++ [applyCreateFlags b1 env1.configSkipContents env1.configSkipBz2 p1] := by
  obtain ⟨hs1, hp1, hd1⟩ := create_scheduled_identity _ _ _ _ _ _ _ h1
  obtain ⟨hs2, hp2, hd2⟩ := create_scheduled_identity _ _ _ _ _ _ _ h3
  obtain ⟨_, hstore1, _⟩ := createTaskBody_ok _ _ _ _ _ _ h2 hok
  have hq1s : (applyCreateFlags b1 env1.configSkipContents env1.configSkipBz2 p1).storage
      = storage := (applyCreateFlags_fields _ _ _ _).1.trans hs1
  have hq1p : (applyCreateFlags b1 env1.configSkipContents env1.configSkipBz2 p1).pfx
      = pfx := (applyCreateFlags_fields _ _ _ _).2.1.trans hp1
  have hq1d : (applyCreateFlags b1 env1.configSkipContents env1.configSkipBz2 p1).distribution
      = b1.distribution := (applyCreateFlags_fields _ _ _ _).2.2.trans hd1
  have hq2s : (applyCreateFlags b2 env2.configSkipContents env2.configSkipBz2 p2).storage
      = storage := (applyCreateFlags_fields _ _ _ _).1.trans hs2
  have hq2p : (applyCreateFlags b2 env2.configSkipContents env2.configSkipBz2 p2).pfx
      = pfx := (applyCreateFlags_fields _ _ _ _).2.1.trans hp2
  have hq2d : (applyCreateFlags b2 env2.configSkipContents env2.configSkipBz2 p2).distribution
      = b1.distribution := ((applyCreateFlags_fields _ _ _ _).2.2.trans hd2).trans hdist
  have hfindstore : identFind store storage pfx b1.distribution = none :=
    (identCount_zero_iff store storage pfx b1.distribution).mp h0
  have hfind : checkDuplicate store1
      (applyCreateFlags b2 env2.configSkipContents env2.configSkipBz2 p2)
      = some (applyCreateFlags b1 env1.configSkipContents env1.configSkipBz2 p1) := by
    unfold checkDuplicate
    rw [hq2s, hq2p, hq2d, hstore1, identFind_append, hfindstore]
    simp [identFind, hq1s, hq1p, hq1d]
  refine ⟨createTaskBody_duplicate env2 b2 p2 _ store1 hfind, ?_, hstore1⟩
  rw [hstore1, identCount_append, h0]
  simp [identCount, hq1s, hq1p, hq1d]

theorem create_duplicate_second_fails_witness :
    apiPublishRepoOrSnapshot envW "" "." bW
      = .scheduled [] [.snapshotKey "u1", .publishedKey "" "." "stable"] pW
    ∧ createTaskBody envW bW pW [] = (⟨201, true⟩, [pW])
    ∧ (⟨201, true⟩ : BodyResult).ok = true
    ∧ bW.distribution = bW.distribution
    ∧ identCount [] "" "." bW.distribution = 0
    ∧ (createTaskBody envW bW pW [pW] = (⟨400, false⟩, [pW])
       ∧ identCount [pW] "" "." bW.distribution = 1
       ∧ [pW] = [] ++ [applyCreateFlags bW envW.configSkipContents envW.configSkipBz2 pW]) :=
  ⟨by decide, by decide, by decide, rfl, by decide,
   create_duplicate_second_fails envW envW "" "." bW bW [] [pW]
     [] [] [.snapshotKey "u1", .publishedKey "" "." "stable"]
     [.snapshotKey "u1", .publishedKey "" "." "stable"] pW pW ⟨201, true⟩
     (by decide) (by decide) (by decide) (by decide) rfl (by decide)⟩

/-- C7: a create request with an empty sources list, or with a sourceKind
that is neither `snapshot` nor `local`, is rejected with a 400 bad-input
error before any task is scheduled — the handler answers `earlyAbort 400`,
so no resources are declared, no task body exists, and the record store is
never touched (only task bodies receive it). -/
theorem create_validation_early_abort (env : Env) (storage pfx : String) (b : CreateBody)
    (hs : ¬ env.signerFails)
    (hv : b.sources = [] ∨ (b.sourceKind ≠ SourceSnapshot ∧ b.sourceKind ≠ SourceLocalRepo)) :
    apiPublishRepoOrSnapshot env storage pfx b = .earlyAbort 400 := by
  unfold apiPublishRepoOrSnapshot
  rw [if_neg hs]
  rcases hv with hempty | ⟨hk1, hk2⟩
  · rw [hempty]
    simp
  · by_cases hlen : b.sources.length = 0
    · simp [hlen]
    · simp [hlen, hk1, hk2]

theorem create_validation_early_abort_witness :
    (¬ envW.signerFails
     ∧ ({ bW with sources := [] } : CreateBody).sources = [])
    ∧ apiPublishRepoOrSnapshot envW "" "." { bW with sources := [] } = .earlyAbort 400
    ∧ apiPublishRepoOrSnapshot envW "" "." { bW with sourceKind := "remote" } = .earlyAbort 400 :=
  ⟨⟨by decide, by decide⟩,
   create_validation_early_abort envW "" "." { bW with sources := [] }
     (by decide) (Or.inl (by decide)),
   create_validation_early_abort envW "" "." { bW with sourceKind := "remote" }
     (by decide) (Or.inr (by decide))⟩

/-- C9: evaluating `apiPublishRepoOrSnapshot` at the failing input — a create
request referencing a local repo whose `LoadComplete` fails.  The handler
records the 500 `AbortWithJSONError` but, because the `return` statement
present in the snapshot branch (lines 195-197) is missing in the local-repo
branch (lines 217-220), it still builds the repository and schedules the
publish task.  The second conjunct shows the snapshot branch stopping with
`earlyAbort 500` for the identical failure, as the claim demands. -/
theorem create_localrepo_load_failure_proceeds :
    apiPublishRepoOrSnapshot envC9 "" "." bC9
      = .scheduled [500] [.localRepoKey "u1", .publishedKey "" "." "stable"] pC9
    ∧ apiPublishRepoOrSnapshot envC9s "" "." bW = .earlyAbort 500 := by
  decide

/-- C2 (counterexample): an update request with both binding lists absent on
a snapshot-kind published repo marks no component for refresh — the
scheduled task carries an empty `updatedComponents` list although `main` is
currently bound, so "every currently bound component is marked for refresh"
fails on snapshot-kind repos (the refresh loop exists only in the local-repo
branch, lines 415-421). -/
theorem update_refresh_snapshot_counterexample :
    apiPublishUpdateSwitch envW [pW] "" "." "stable" bU0
      = .scheduled [.publishedKey "" "." "stable"] pW [] [] [] false
    ∧ pW.components = ["main"]
    ∧ ([] : List String) ≠ ["main"] := by
  decide

/-- C3 (counterexample): the update handler looks the published repo up in
the record store and mutates it (here: removing component `contrib`) before
the task is admitted — the `.scheduled` payload, computed entirely
pre-admission, already differs from the stored record. -/
theorem update_premutation_counterexample :
    identFind [pubC2L] "" "." "stable" = some pubC2L
    ∧ apiPublishUpdateSwitch envC3 [pubC2L] "" "." "stable" bC3
      = .scheduled [.publishedKey "" "." "stable"] pC3after [] [] ["contrib"] false
    ∧ pC3after.sourceList ≠ pubC2L.sourceList := by
  decide

/-- C3 (amended): the durable record store is written only inside the locked
task body, which commits the pre-built value — the update body either leaves
the store unchanged (failure before the commit) or replaces the record with
the handler-prepared value, and on success it always commits exactly that
value.  (The `PublishedRepo` lookup and mutation themselves happen in the
handler before task admission, as `update_premutation_counterexample`
shows.) -/
theorem update_store_written_only_in_body
    (env : Env) (p : PublishedRepo) (rm : List String) (skipC : Bool)
    (store store1 : Store) (r : BodyResult)
    (h : updateTaskBody env p rm skipC store = (r, store1)) :
    (store1 = store ∨ store1 = identReplace store p)
    ∧ (r.ok = true → store1 = identReplace store p) := by
  unfold updateTaskBody at h
  split at h
  · cases h
    exact ⟨Or.inl rfl, by intro hk; simp at hk⟩
  · split at h
    · cases h
      exact ⟨Or.inl rfl, by intro hk; simp at hk⟩
    · split at h
      · split at h
        · cases h
          exact ⟨Or.inr rfl, fun _ => rfl⟩
        · split at h
          · cases h
            exact ⟨Or.inr rfl, fun _ => rfl⟩
          · cases h
            exact ⟨Or.inr rfl, fun _ => rfl⟩
      · cases h
        exact ⟨Or.inr rfl, fun _ => rfl⟩

theorem update_store_written_only_in_body_witness :
    updateTaskBody envW pW [] false [pW] = (⟨200, true⟩, [pW])
    ∧ (([pW] : Store) = [pW] ∨ [pW] = identReplace [pW] pW)
    ∧ ((⟨200, true⟩ : BodyResult).ok = true → [pW] = identReplace [pW] pW) :=
  ⟨by decide,
   (update_store_written_only_in_body envW pW [] false [pW] [pW] ⟨200, true⟩ (by decide)).1,
   (update_store_written_only_in_body envW pW [] false [pW] [pW] ⟨200, true⟩ (by decide)).2⟩

/-- C4 (counterexample): an update request that newly binds snapshot
`snapNew` (UUID `u9`) declares only the published-repo identity key to the
scheduler — the newly bound source's resource key is not in the declared
set, contradicting "the existing identity key plus the resource key of every
newly bound source". -/
theorem update_resources_missing_source_key :
    apiPublishUpdateSwitch envC4 [pW] "" "." "stable" bC4
      = .scheduled [.publishedKey "" "." "stable"] pC4after ["main"] ["snapNew"] [] false
    ∧ ResourceKey.snapshotKey "u9" ∉ ([.publishedKey "" "." "stable"] : List ResourceKey) := by
  decide

theorem updateFinish_scheduled (b : UpdateBody) (p2 : PublishedRepo)
    (upC upS rm : List String) (dep : Bool) :
    updateFinish b p2 upC upS rm dep
      = .scheduled [ResourceKey.publishedKey p2.storage p2.pfx p2.distribution]
          (applyUpdateFlags b p2) upC upS rm dep := rfl

theorem updateByKind_scheduled_res (env : Env) (b : UpdateBody) (published1 : PublishedRepo)
    (rm : List String) (res : List ResourceKey) (p2 : PublishedRepo)
    (upC upS rm2 : List String) (dep : Bool)
    (h : updateByKind env b published1 rm = .scheduled res p2 upC upS rm2 dep) :
    res = [ResourceKey.publishedKey published1.storage published1.pfx published1.distribution]
    ∧ rm2 = rm := by
  unfold updateByKind at h
  split at h
  · split at h
    · exact UpdateResult.noConfusion h
    · cases hsrc : b.sources with
      | some srcs =>
        simp only [hsrc] at h
        cases hbp : bindPhase env SourceLocalRepo published1 [] [] (buildMap srcs) with
        | error code => simp [hbp] at h
        | ok tr =>
          obtain ⟨p2', upC', upS'⟩ := tr
          simp only [hbp, updateFinish_scheduled] at h
          cases h
          obtain ⟨hs, hp, hd, _⟩ := bindPhase_ok_fields _ _ _ _ _ _ _ _ _ hbp
          rw [hs, hp, hd]
          exact ⟨rfl, rfl⟩
      | none =>
        simp only [hsrc, updateFinish_scheduled] at h
        cases h
        exact ⟨rfl, rfl⟩
  · split at h
    · cases hbp : bindPhase env SourceSnapshot published1 [] [] (snapshotEntries b) with
      | error code => simp [hbp] at h
      | ok tr =>
        obtain ⟨p2', upC', upS'⟩ := tr
        simp only [hbp, updateFinish_scheduled] at h
        cases h
        obtain ⟨hs, hp, hd, _⟩ := bindPhase_ok_fields _ _ _ _ _ _ _ _ _ hbp
        rw [hs, hp, hd]
        exact ⟨rfl, rfl⟩
    · exact UpdateResult.noConfusion h

/-- C4 (amended): for every update request that reaches task admission, the
declared resource-key set is exactly the singleton holding the existing
published repo's identity key `(storage, pfx, distribution)`; resource keys
of newly bound sources are not declared. -/
theorem update_resources_identity_only
    (env : Env) (store : Store) (storage pfx distribution : String) (b : UpdateBody)
    (res : List ResourceKey) (p2 : PublishedRepo) (upC upS rm : List String) (dep : Bool)
    (h : apiPublishUpdateSwitch env store storage pfx distribution b
      = .scheduled res p2 upC upS rm dep) :
    res = [ResourceKey.publishedKey storage pfx distribution] := by
  unfold apiPublishUpdateSwitch at h
  split at h
  · exact UpdateResult.noConfusion h
  · split at h
    · exact UpdateResult.noConfusion h
    · rename_i published hfind
      split at h
      · exact UpdateResult.noConfusion h
      · obtain ⟨hps, hpp, hpd⟩ := identFind_some _ _ _ _ _ hfind
        unfold updateAfterLoad at h
        cases hsrc : b.sources with
        | some srcs =>
          simp only [hsrc] at h
          obtain ⟨hres, _⟩ := updateByKind_scheduled_res _ _ _ _ _ _ _ _ _ _ h
          have hf := removalGo_fst_fields (buildMap srcs) published.components published
          simp only [removalPhase] at hres
          rw [hres, hf.1, hf.2.1, hf.2.2.1, hps, hpp, hpd]
        | none =>
          simp only [hsrc] at h
          obtain ⟨hres, _⟩ := updateByKind_scheduled_res _ _ _ _ _ _ _ _ _ _ h
          rw [hres, hps, hpp, hpd]

theorem update_resources_identity_only_witness :
    apiPublishUpdateSwitch envC4 [pW] "" "." "stable" bC4
      = .scheduled [.publishedKey "" "." "stable"] pC4after ["main"] ["snapNew"] [] false
    ∧ ([.publishedKey "" "." "stable"] : List ResourceKey)
        = [.publishedKey "" "." "stable"] :=
  ⟨by decide,
   update_resources_identity_only envC4 [pW] "" "." "stable" bC4
     [.publishedKey "" "." "stable"] pC4after ["main"] ["snapNew"] [] false (by decide)⟩

/-- C5 (counterexample): when Publish and the record-store commit succeed
but cleanup fails, the update task body returns 500 with `ok = false` — the
task terminates as failed, not as "succeeded with a warning attached" —
while the already-committed record (`identReplace`) is indeed left in the
store. -/
theorem cleanup_failure_fails_task :
    updateTaskBody envC5 pW [] false [pW] = (⟨500, false⟩, identReplace [pW] pW)
    ∧ (⟨500, false⟩ : BodyResult).ok = false
    ∧ identReplace [pW] pW = [pW] := by
  decide

/-- C5 (amended): when Publish and the record-store commit succeed but the
subsequent cleanup step fails (and cleanup was not skipped), the task
terminates as failed with a 500 error — the cleanup failure is not
downgraded to a warning — but the publish is never reverted: the store the
body returns still holds the committed record. -/
theorem cleanup_failure_preserves_commit
    (env : Env) (p : PublishedRepo) (rm : List String) (store : Store)
    (hp : env.publishFails = false) (hd : env.dbUpdateFails = false)
    (hc : env.cleanupFails = true) :
    updateTaskBody env p rm false store = (⟨500, false⟩, identReplace store p) := by
  simp [updateTaskBody, hp, hd, hc]

theorem cleanup_failure_preserves_commit_witness :
    envC5.publishFails = false
    ∧ envC5.dbUpdateFails = false
    ∧ envC5.cleanupFails = true
    ∧ updateTaskBody envC5 pW [] false [pW] = (⟨500, false⟩, identReplace [pW] pW) :=
  ⟨by decide, by decide, by decide,
   cleanup_failure_preserves_commit envC5 pW [] [pW] (by decide) (by decide) (by decide)⟩

/-- C6: evaluating the update handler at the failing input.  The legacy
`Snapshots` list is accepted (only the newer `Sources` list being absent)
and triggers the deprecation flag, but the component `contrib` missing from
the list stays bound with nothing tracked as removed — whereas the identical
request through the newer `Sources` list removes `contrib`.  The legacy form
is NOT normalized to "the same treatment of components missing from the
list": the removal delta of lines 372-379 runs only when `Sources != nil`,
contradicting the deprecation warning printed by this very path (lines
426-429), which promises that missing sources are removed. -/
theorem legacy_snapshots_missing_component_kept :
    apiPublishUpdateSwitch envC6 [pubC6] "" "." "stable" bC6
      = .scheduled [.publishedKey "" "." "stable"] pC6after ["main"] ["snapNew"] [] true
    ∧ alookup pC6after.sourceList "contrib" = some "u2"
    ∧ apiPublishUpdateSwitch envC6 [pubC6] "" "." "stable" bC6s
      = .scheduled [.publishedKey "" "." "stable"] pC6safter ["main"] ["snapNew"] ["contrib"] false
    ∧ alookup pC6safter.sourceList "contrib" = none := by
  decide

/-- C8: evaluating the drop handler at the failing input.  The handler reads
the skip-cleanup flag from query key `"SkipCleanup"` (capital S), so a
request carrying `skipCleanup=1` — the spelling in the claim and in the
handler's own swagger annotation (line 531) — parses as `skipCleanup =
false` and the drop body removes the on-disk files; only the
`SkipCleanup=1` spelling leaves them untouched.  `force=1` parses as
documented. -/
theorem drop_skipcleanup_query_case_mismatch :
    apiPublishDrop [pW] [("skipCleanup", "1")] "" "." "stable"
      = .scheduled [.publishedKey "" "." "stable"] false false
    ∧ dropTaskBody envW "" "." "stable" false false [pW] true = (⟨200, true⟩, [], false)
    ∧ apiPublishDrop [pW] [("SkipCleanup", "1")] "" "." "stable"
      = .scheduled [.publishedKey "" "." "stable"] false true
    ∧ dropTaskBody envW "" "." "stable" false true [pW] true = (⟨200, true⟩, [], true)
    ∧ apiPublishDrop [pW] [("force", "1")] "" "." "stable"
      = .scheduled [.publishedKey "" "." "stable"] true false := by
  decide

theorem bindPhase_start_delta (env : Env) (kind : String) (p1 : PublishedRepo)
    (srcs : List (String × String)) (p2 : PublishedRepo) (upC upS : List String)
    (hbp : bindPhase env kind p1 [] [] (buildMap srcs) = .ok (p2, upC, upS)) :
    (∀ c, c ∉ (buildMap srcs).map Prod.fst →
        alookup p2.sourceList c = alookup p1.sourceList c ∧ c ∉ upC)
    ∧ (∀ c n u, (c, n) ∈ buildMap srcs →
        resolveUpdateSource env kind n = .ok u →
        ((alookup p1.sourceList c = some u → alookup p2.sourceList c = some u ∧ c ∉ upC)
         ∧ (alookup p1.sourceList c ≠ some u → alookup p2.sourceList c = some u ∧ c ∈ upC))) := by
  constructor
  · intro c hc
    obtain ⟨ha, hb⟩ := bindPhase_not_mem env kind c (buildMap srcs) p1 [] [] p2 upC upS hc hbp
    refine ⟨ha, fun hmem => ?_⟩
    have hfalse := hb.mp hmem
    simp at hfalse
  · intro c n u hmem hres
    obtain ⟨h1, h2⟩ := bindPhase_mem env kind c n u (buildMap srcs) p1 [] [] p2 upC upS
      (buildMap_keys_nodup srcs) hmem hres hbp
    refine ⟨fun hsome => ?_, h2⟩
    obtain ⟨ha, hb⟩ := h1 hsome
    refine ⟨ha, fun hcm => ?_⟩
    have hfalse := hb.mp hcm
    simp at hfalse

/-- C2 (amended): for every update request providing a new `Sources` list,
the components bound in the published repo but absent from the list are
removed (unbound in the scheduled repo) and tracked as removed, components
whose bound source UUID changed are rebound and tracked as updated, and
components whose bound UUID is unchanged are left untouched and not tracked;
for every update request with both binding lists absent, on a
local-repo-kind published repo every currently bound component is marked for
refresh (tracked as updated with its binding unchanged) — but, as
`update_refresh_snapshot_counterexample` shows, on a snapshot-kind repo no
component is marked. -/
theorem update_sources_delta
    (env : Env) (store : Store) (storage pfx distribution : String) (b : UpdateBody)
    (published0 : PublishedRepo) (res : List ResourceKey) (p2 : PublishedRepo)
    (upC upS rm : List String) (dep : Bool)
    (hfind : identFind store storage pfx distribution = some published0)
    (hrun : apiPublishUpdateSwitch env store storage pfx distribution b
      = .scheduled res p2 upC upS rm dep) :
    (∀ srcs, b.sources = some srcs →
       rm = published0.components.filter (fun c => (alookup (buildMap srcs) c).isNone)
       ∧ (∀ c, c ∈ rm → alookup p2.sourceList c = none)
       ∧ (∀ c n u, (c, n) ∈ buildMap srcs →
            resolveUpdateSource env published0.sourceKind n = .ok u →
            ((alookup published0.sourceList c = some u →
                alookup p2.sourceList c = some u ∧ c ∉ upC)
             ∧ (alookup published0.sourceList c ≠ some u →
                alookup p2.sourceList c = some u ∧ c ∈ upC))))
    ∧ (b.sources = none → b.snapshots = none →
         published0.sourceKind = SourceLocalRepo →
         upC = published0.components ∧ p2.sourceList = published0.sourceList ∧ rm = []) := by
  unfold apiPublishUpdateSwitch at hrun
  split at hrun
  · exact UpdateResult.noConfusion hrun
  · simp only [hfind] at hrun
    split at hrun
    · exact UpdateResult.noConfusion hrun
    · constructor
      · intro srcs hsrc
        unfold updateAfterLoad at hrun
        simp only [hsrc] at hrun
        have hrm2 : (removalPhase published0 (buildMap srcs)).2
            = published0.components.filter (fun c => (alookup (buildMap srcs) c).isNone) := by
          simp only [removalPhase]
          exact removalGo_snd (buildMap srcs) published0.components published0
        have hlook1 : ∀ c, alookup (removalPhase published0 (buildMap srcs)).1.sourceList c =
            if c ∈ published0.components ∧ alookup (buildMap srcs) c = none then none
            else alookup published0.sourceList c := by
          intro c
          simp only [removalPhase]
          exact removalGo_alookup (buildMap srcs) published0.components published0 c
        have hkind : (removalPhase published0 (buildMap srcs)).1.sourceKind
            = published0.sourceKind := by
          simp only [removalPhase]
          exact (removalGo_fst_fields _ _ _).2.2.2
        unfold updateByKind at hrun
        split at hrun
        · rename_i hkl
          split at hrun
          · exact UpdateResult.noConfusion hrun
          · simp only [hsrc] at hrun
            cases hbp : bindPhase env SourceLocalRepo
                (removalPhase published0 (buildMap srcs)).1 [] [] (buildMap srcs) with
            | error code => simp [hbp] at hrun
            | ok tr =>
              obtain ⟨p2', upC', upS'⟩ := tr
              have hkind0 : published0.sourceKind = SourceLocalRepo := hkind ▸ hkl
              obtain ⟨hout, hin⟩ :=
                bindPhase_start_delta env SourceLocalRepo _ srcs p2' upC' upS' hbp
              simp only [hbp, updateFinish_scheduled] at hrun
              cases hrun
              refine ⟨hrm2, ?_, ?_⟩
              · intro c hc
                rw [hrm2] at hc
                obtain ⟨hcm, hcn⟩ := List.mem_filter.mp hc
                have hcn2 : alookup (buildMap srcs) c = none := by
                  cases halo2 : alookup (buildMap srcs) c with
                  | none => rfl
                  | some v => rw [halo2] at hcn; simp at hcn
                have hnotkey : c ∉ (buildMap srcs).map Prod.fst :=
                  (alookup_eq_none_iff _ _).mp hcn2
                have hnone1 : alookup (removalPhase published0 (buildMap srcs)).1.sourceList c
                    = none := by
                  rw [hlook1 c]
                  simp [hcm, hcn2]
                rw [(applyUpdateFlags_fields b p2').2.2.2.2, (hout c hnotkey).1, hnone1]
              · intro c n u hcm hres
                have hmc : alookup (buildMap srcs) c = some n :=
                  alookup_of_mem_nodup _ _ _ (buildMap_keys_nodup srcs) hcm
                have hp1look : alookup (removalPhase published0 (buildMap srcs)).1.sourceList c
                    = alookup published0.sourceList c := by
                  rw [hlook1 c]
                  simp [hmc]
                rw [hkind0] at hres
                rw [(applyUpdateFlags_fields b p2').2.2.2.2, ← hp1look]
                exact hin c n u hcm hres
        · split at hrun
          · rename_i hks
            have hse : snapshotEntries b = buildMap srcs := by
              simp [snapshotEntries, hsrc]
            rw [hse] at hrun
            cases hbp : bindPhase env SourceSnapshot
                (removalPhase published0 (buildMap srcs)).1 [] [] (buildMap srcs) with
            | error code => simp [hbp] at hrun
            | ok tr =>
              obtain ⟨p2', upC', upS'⟩ := tr
              have hkind0 : published0.sourceKind = SourceSnapshot := hkind ▸ hks
              obtain ⟨hout, hin⟩ :=
                bindPhase_start_delta env SourceSnapshot _ srcs p2' upC' upS' hbp
              simp only [hbp, updateFinish_scheduled] at hrun
              cases hrun
              refine ⟨hrm2, ?_, ?_⟩
              · intro c hc
                rw [hrm2] at hc
                obtain ⟨hcm, hcn⟩ := List.mem_filter.mp hc
                have hcn2 : alookup (buildMap srcs) c = none := by
                  cases halo2 : alookup (buildMap srcs) c with
                  | none => rfl
                  | some v => rw [halo2] at hcn; simp at hcn
                have hnotkey : c ∉ (buildMap srcs).map Prod.fst :=
                  (alookup_eq_none_iff _ _).mp hcn2
                have hnone1 : alookup (removalPhase published0 (buildMap srcs)).1.sourceList c
                    = none := by
                  rw [hlook1 c]
                  simp [hcm, hcn2]
                rw [(applyUpdateFlags_fields b p2').2.2.2.2, (hout c hnotkey).1, hnone1]
              · intro c n u hcm hres
                have hmc : alookup (buildMap srcs) c = some n :=
                  alookup_of_mem_nodup _ _ _ (buildMap_keys_nodup srcs) hcm
                have hp1look : alookup (removalPhase published0 (buildMap srcs)).1.sourceList c
                    = alookup published0.sourceList c := by
                  rw [hlook1 c]
                  simp [hmc]
                rw [hkind0] at hres
                rw [(applyUpdateFlags_fields b p2').2.2.2.2, ← hp1look]
                exact hin c n u hcm hres
          · exact UpdateResult.noConfusion hrun
      · intro hs hsnap hkind0
        unfold updateAfterLoad at hrun
        simp only [hs] at hrun
        have hby : updateByKind env b published0 []
            = updateFinish b published0 published0.components [] [] false := by
          unfold updateByKind
          rw [if_pos hkind0, hsnap, hs]
          simp
        rw [hby, updateFinish_scheduled] at hrun
        cases hrun
        exact ⟨rfl, (applyUpdateFlags_fields b published0).2.2.2.2, rfl⟩

theorem update_sources_delta_witness :
    identFind [pubC2L] "" "." "stable" = some pubC2L
    ∧ apiPublishUpdateSwitch envC2 [pubC2L] "" "." "stable" bC2
      = .scheduled [.publishedKey "" "." "stable"] pC2after ["main", "extra"] ["repo9", "repoX"]
          ["contrib"] false
    ∧ bC2.sources = some [("main", "repo9"), ("extra", "repoX")]
    ∧ (["contrib"] : List String)
        = pubC2L.components.filter
            (fun c => (alookup (buildMap [("main", "repo9"), ("extra", "repoX")]) c).isNone)
    ∧ alookup pC2after.sourceList "contrib" = none
    ∧ alookup pC2after.sourceList "main" = some "u9"
    ∧ "main" ∈ (["main", "extra"] : List String) := by
  have h := update_sources_delta envC2 [pubC2L] "" "." "stable" bC2 pubC2L
    [.publishedKey "" "." "stable"] pC2after ["main", "extra"] ["repo9", "repoX"]
    ["contrib"] false (by decide) (by decide)
  have hA := h.1 [("main", "repo9"), ("extra", "repoX")] rfl
  refine ⟨by decide, by decide, rfl, hA.1, hA.2.1 "contrib" (by decide), ?_, ?_⟩
  · exact ((hA.2.2 "main" "repo9" "u9" (by decide) rfl).2 (by decide)).1
  · exact ((hA.2.2 "main" "repo9" "u9" (by decide) rfl).2 (by decide)).2

end AptlyPublish
